import Mathlib

/-!
Verification of the eliza agent-runtime core against its specification.

This file shallowly embeds the message-processing orchestration core of the
repository:

* the JSON repair / extraction helpers `normalizeJsonString` and
  `parseJSONObjectFromText` (source: `packages/core/README.md`, the inlined
  `prompts.ts` listing, lines 364, 480-610), together with a model of the
  JavaScript built-in `JSON.parse` (an external collaborator of the core);
* the response-freshness registry `latestResponseIds` and the newer variant of
  `messageReceivedHandler` (source: `packages/core/src/bootstrap.ts`,
  lines 914-1169), modelled as a pure function from an environment (the
  oracle outputs of the model calls, the participant state, the interleaved
  registrations of concurrently running passes) to a trace of the effects the
  handler performs (memories persisted, lifecycle events emitted, dispatcher
  and evaluator invocations, the propagated exception, the registry left
  behind).

JavaScript specifics that the embedding reproduces: `Map.set/get/delete`
semantics as association-list updates, regex scanning with lazy quantifiers
and backtracking for the repair rules of `normalizeJsonString`, truthiness of
JSON values, and `try`/`catch` as an `Option String` "thrown" outcome.
Whitespace classes (`\s`, `trim`) are modelled over their ASCII members; all
inputs considered here are ASCII.
-/

namespace Eliza

/-! ### JavaScript `Map` semantics over association lists

`Map.set` replaces the value of an existing key in place and appends a fresh
key; `Map.get` returns the unique binding; `Map.delete` removes it. -/

def mapSet {α : Type} : List (String × α) → String → α → List (String × α)
  | [], k, v => [(k, v)]
  | (k0, v0) :: rest, k, v =>
      if k0 = k then (k, v) :: rest else (k0, v0) :: mapSet rest k v

def mapGet {α : Type} : List (String × α) → String → Option α
  | [], _ => none
  | (k0, v0) :: rest, k => if k0 = k then some v0 else mapGet rest k

def mapDelete {α : Type} : List (String × α) → String → List (String × α)
  | [], _ => []
  | (k0, v0) :: rest, k => if k0 = k then rest else (k0, v0) :: mapDelete rest k

theorem mapGet_mapSet_self {α : Type} (m : List (String × α)) (k : String) (v : α) :
    mapGet (mapSet m k v) k = some v := by
  induction m with
  | nil => simp [mapSet, mapGet]
  | cons p rest ih =>
      obtain ⟨k0, v0⟩ := p
      by_cases h : k0 = k
      · simp [mapSet, mapGet, h]
      · simp [mapSet, mapGet, h, ih]

/-! ### JSON values and a model of the JavaScript built-in `JSON.parse`

`JSON.parse` is an external collaborator used by the parsing helpers; we model
it as a recursive-descent parser of the JSON grammar (ECMA-404).  Numbers keep
their source lexeme.  A thrown `SyntaxError` is modelled as `none`.  Duplicate
object keys overwrite, as JavaScript property assignment does. -/

inductive JsonValue where
  | null : JsonValue
  | bool : Bool → JsonValue
  | num : String → JsonValue
  | str : String → JsonValue
  | arr : List JsonValue → JsonValue
  | obj : List (String × JsonValue) → JsonValue

def isJsonWs (c : Char) : Bool :=
  c = ' ' ∨ c = '\t' ∨ c = '\n' ∨ c = '\r'

def skipWs (l : List Char) : List Char := l.dropWhile isJsonWs

def hexVal (c : Char) : Option Nat :=
  if '0' ≤ c ∧ c ≤ '9' then some (c.toNat - 48)
  else if 'a' ≤ c ∧ c ≤ 'f' then some (c.toNat - 87)
  else if 'A' ≤ c ∧ c ≤ 'F' then some (c.toNat - 55)
  else none

/-- Body of a JSON string after the opening quote, with escape handling.
Literal control characters are a syntax error, as in `JSON.parse`. -/
def parseStrBody : List Char → List Char → Option (String × List Char)
  | [], _ => none
  | '"' :: r, acc => some (String.mk acc.reverse, r)
  | '\\' :: '"' :: r, acc => parseStrBody r ('"' :: acc)
  | '\\' :: '\\' :: r, acc => parseStrBody r ('\\' :: acc)
  | '\\' :: '/' :: r, acc => parseStrBody r ('/' :: acc)
  | '\\' :: 'b' :: r, acc => parseStrBody r ('\x08' :: acc)
  | '\\' :: 'f' :: r, acc => parseStrBody r ('\x0c' :: acc)
  | '\\' :: 'n' :: r, acc => parseStrBody r ('\n' :: acc)
  | '\\' :: 'r' :: r, acc => parseStrBody r ('\r' :: acc)
  | '\\' :: 't' :: r, acc => parseStrBody r ('\t' :: acc)
  | '\\' :: 'u' :: a :: b :: c :: d :: r, acc =>
      match hexVal a, hexVal b, hexVal c, hexVal d with
      | some x1, some x2, some x3, some x4 =>
          parseStrBody r (Char.ofNat (((x1 * 16 + x2) * 16 + x3) * 16 + x4) :: acc)
      | _, _, _, _ => none
  | '\\' :: _ :: _, _ => none
  | ['\\'], _ => none
  | c :: r, acc => if c.toNat < 32 then none else parseStrBody r (c :: acc)

/-- Continuation of a number lexeme after the integer part: optional fraction
and exponent, per the JSON number grammar. -/
def parseNumTail (lex : List Char) (r : List Char) : Option (JsonValue × List Char) :=
  let step1 : Option (List Char × List Char) :=
    match r with
    | '.' :: rr =>
        let ds := rr.takeWhile Char.isDigit
        if ds.isEmpty then none
        else some (lex ++ '.' :: ds, rr.dropWhile Char.isDigit)
    | _ => some (lex, r)
  match step1 with
  | none => none
  | some (lex2, r2) =>
      match r2 with
      | e :: rr =>
          if e = 'e' ∨ e = 'E' then
            let signAndRest : List Char × List Char :=
              match rr with
              | '+' :: t => (['+'], t)
              | '-' :: t => (['-'], t)
              | _ => ([], rr)
            let ds := signAndRest.2.takeWhile Char.isDigit
            if ds.isEmpty then none
            else some (JsonValue.num (String.mk (lex2 ++ e :: signAndRest.1 ++ ds)),
                       signAndRest.2.dropWhile Char.isDigit)
          else some (JsonValue.num (String.mk lex2), r2)
      | [] => some (JsonValue.num (String.mk lex2), [])

/-- JSON number: optional minus, then `0` or a nonzero-led digit run. -/
def parseNum (l : List Char) : Option (JsonValue × List Char) :=
  let signAndRest : List Char × List Char :=
    match l with
    | '-' :: r => (['-'], r)
    | _ => ([], l)
  match signAndRest.2 with
  | '0' :: r2 => parseNumTail (signAndRest.1 ++ ['0']) r2
  | c :: _ =>
      if c.isDigit then
        parseNumTail (signAndRest.1 ++ signAndRest.2.takeWhile Char.isDigit)
          (signAndRest.2.dropWhile Char.isDigit)
      else none
  | [] => none

mutual

/-- One JSON value, fuel-indexed for termination. -/
def parseValueF : Nat → List Char → Option (JsonValue × List Char)
  | 0, _ => none
  | Nat.succ fuel, l =>
      match l with
      | '\x7b' :: r =>
          match skipWs r with
          | '\x7d' :: r2 => some (JsonValue.obj [], r2)
          | r2 => parseMembersF fuel r2 []
      | '[' :: r =>
          match skipWs r with
          | ']' :: r2 => some (JsonValue.arr [], r2)
          | r2 => parseElemsF fuel r2 []
      | '"' :: r =>
          match parseStrBody r [] with
          | some (s, r2) => some (JsonValue.str s, r2)
          | none => none
      | 't' :: 'r' :: 'u' :: 'e' :: r => some (JsonValue.bool true, r)
      | 'f' :: 'a' :: 'l' :: 's' :: 'e' :: r => some (JsonValue.bool false, r)
      | 'n' :: 'u' :: 'l' :: 'l' :: r => some (JsonValue.null, r)
      | _ => parseNum l

/-- Object members after `{` (whitespace already consumed, at a key). -/
def parseMembersF : Nat → List Char → List (String × JsonValue) →
    Option (JsonValue × List Char)
  | 0, _, _ => none
  | Nat.succ fuel, l, acc =>
      match l with
      | '"' :: r =>
          match parseStrBody r [] with
          | some (k, r2) =>
              match skipWs r2 with
              | ':' :: r3 =>
                  match parseValueF fuel (skipWs r3) with
                  | some (v, r4) =>
                      match skipWs r4 with
                      | ',' :: r5 => parseMembersF fuel (skipWs r5) (mapSet acc k v)
                      | '\x7d' :: r5 => some (JsonValue.obj (mapSet acc k v), r5)
                      | _ => none
                  | none => none
              | _ => none
          | none => none
      | _ => none

/-- Array elements after `[` (whitespace already consumed, at a value). -/
def parseElemsF : Nat → List Char → List JsonValue → Option (JsonValue × List Char)
  | 0, _, _ => none
  | Nat.succ fuel, l, acc =>
      match parseValueF fuel l with
      | some (v, r) =>
          match skipWs r with
          | ',' :: r2 => parseElemsF fuel (skipWs r2) (acc ++ [v])
          | ']' :: r2 => some (JsonValue.arr (acc ++ [v]), r2)
          | _ => none
      | none => none

end

/-- Model of `JSON.parse`: a full JSON document, surrounding whitespace
allowed, nothing left over; a syntax error is `none`. -/
def jsonParse (s : String) : Option JsonValue :=
  let l := skipWs s.data
  match parseValueF (l.length + 1) l with
  | some (v, rest) => if skipWs rest = [] then some v else none
  | none => none

/-! ### JavaScript string and value helpers -/

/-- ASCII members of the JavaScript `\s` class and of `String.prototype.trim`. -/
def isJsWs (c : Char) : Bool :=
  c = ' ' ∨ c = '\t' ∨ c = '\n' ∨ c = '\r' ∨ c = '\x0b' ∨ c = '\x0c'

/-- `String.prototype.trim`. -/
def jsTrim (l : List Char) : List Char :=
  ((l.dropWhile isJsWs).reverse.dropWhile isJsWs).reverse

/-- Property read on a JSON value; reads on non-objects give `undefined`. -/
def objGet (v : JsonValue) (k : String) : Option JsonValue :=
  match v with
  | JsonValue.obj fields => mapGet fields k
  | _ => none

/-- Is a JSON number lexeme the number zero (sign, dot and exponent aside)? -/
def isZeroLexeme (s : String) : Bool :=
  (s.data.takeWhile (fun c => c ≠ 'e' ∧ c ≠ 'E')).all
    (fun c => c = '0' ∨ c = '-' ∨ c = '.')

/-- JavaScript truthiness of a JSON value. -/
def jsTruthy (v : JsonValue) : Bool :=
  match v with
  | JsonValue.null => false
  | JsonValue.bool b => b
  | JsonValue.num lex => ¬ isZeroLexeme lex
  | JsonValue.str s => ¬ s.isEmpty
  | JsonValue.arr _ => true
  | JsonValue.obj _ => true

/-- Truthiness of a possibly-`undefined` value. -/
def jsTruthyOpt (v : Option JsonValue) : Bool :=
  match v with
  | none => false
  | some x => jsTruthy x

def toLowerList (l : List Char) : List Char := l.map Char.toLower

/-- `String.prototype.includes` over character lists. -/
def hasInfix : List Char → List Char → Bool
  | hay, needle =>
      match hay with
      | [] => needle.isEmpty
      | _ :: t => needle.isPrefixOf hay || hasInfix t needle

/-! ### `normalizeJsonString` (README lines 588-610)

```js
export const normalizeJsonString = (str) => {
    str = str.replace(/\{\s+/, "{").replace(/\s+\}/, "}").trim();
    str = str.replace(
      /("[\w\d_-]+")\s*: \s*(?!"|\[)([\s\S]+?)(?=(,\s*"|\}$))/g, ...);
    str = str.replace(/"([^"]+)"\s*:\s*'([^']*)'/g, ...);
    str = str.replace(/("[\w\d_-]+")\s*:\s*([A-Za-z_]+)(?!["\w])/g, ...);
    str = str.replace(/(?:"')|(?:'")/g, "\x22");
    return str;
};
```

Each regex is reproduced as an explicit matcher with JavaScript scanning
semantics: leftmost match, global replacement resumes after the consumed
text, greedy and lazy quantifiers backtrack as the engine does. -/

/-- First occurrence of `\{\s+` replaced by `{`: drop the whitespace run
after the first opening brace that has one. -/
def stripAfterOpenBrace : List Char → List Char
  | [] => []
  | '\x7b' :: rest =>
      match rest with
      | c :: _ =>
          if isJsWs c then '\x7b' :: rest.dropWhile isJsWs
          else '\x7b' :: stripAfterOpenBrace rest
      | [] => ['\x7b']
  | c :: rest => c :: stripAfterOpenBrace rest

/-- First occurrence of `\s+\}` replaced by `}`: drop the first whitespace
run that is immediately followed by a closing brace. -/
def stripBeforeCloseBraceAux : Nat → List Char → List Char
  | 0, l => l
  | _, [] => []
  | Nat.succ fuel, c :: rest =>
      if isJsWs c then
        match rest.dropWhile isJsWs with
        | '\x7d' :: tail => '\x7d' :: tail
        | after => (c :: rest.takeWhile isJsWs) ++ stripBeforeCloseBraceAux fuel after
      else c :: stripBeforeCloseBraceAux fuel rest

def stripBeforeCloseBrace (l : List Char) : List Char :=
  stripBeforeCloseBraceAux l.length l

/-- Characters of the key class `[\w\d_-]`. -/
def isWordChar (c : Char) : Bool :=
  c.isAlpha ∨ c.isDigit ∨ c = '_' ∨ c = '-'

/-- `("[\w\d_-]+")`: a double-quoted key of word characters.  Returns the key
including its quotes and the rest. -/
def matchQuotedKey : List Char → Option (List Char × List Char)
  | '"' :: rest =>
      let w := rest.takeWhile isWordChar
      if w.isEmpty then none
      else
        match rest.dropWhile isWordChar with
        | '"' :: r2 => some ('"' :: (w ++ ['"']), r2)
        | _ => none
  | _ => none

/-- The lookahead `(?=(,\s*"|\}$))` of the unquoted-value rule, evaluated on
the text that follows the candidate capture (a suffix of the subject). -/
def rule2Look (l : List Char) : Bool :=
  match l with
  | ',' :: r =>
      match r.dropWhile isJsWs with
      | '"' :: _ => true
      | _ => false
  | ['\x7d'] => true
  | _ => false

/-- The lazy capture `([\s\S]+?)`: at least one character, extended minimally
until `rule2Look` holds on the remainder. -/
def lazyCapture2 : List Char → Option (List Char × List Char)
  | [] => none
  | c :: r =>
      if rule2Look r then some ([c], r)
      else
        match lazyCapture2 r with
        | some (cap, rest) => some (c :: cap, rest)
        | none => none

/-- One attempt of the unquoted-value rule
`("[\w\d_-]+")\s*: \s*(?!"|\[)([\s\S]+?)(?=(,\s*"|\}$))` at the current
position.  The greedy `\s*` before the negative lookahead backtracks one
character when the lookahead rejects (or when the lazy capture finds no
stop), letting the capture start on the final whitespace character — the
engine behaviour on inputs such as a double space before a quote. -/
def rule2MatchAt (l : List Char) : Option (List Char × List Char) :=
  match matchQuotedKey l with
  | none => none
  | some (key, r1) =>
      match r1.dropWhile isJsWs with
      | ':' :: ' ' :: r3 =>
          let run := r3.takeWhile isJsWs
          let r4 := r3.dropWhile isJsWs
          let direct : Option (List Char × List Char) :=
            match r4 with
            | [] => none
            | c :: _ => if c = '"' ∨ c = '[' then none else lazyCapture2 r4
          let attempt : Option (List Char × List Char) :=
            match direct with
            | some res => some res
            | none =>
                match run.getLast? with
                | some w => lazyCapture2 (w :: r4)
                | none => none
          match attempt with
          | some (cap, rest) =>
              some (key ++ (':' :: ' ' :: '"' :: cap) ++ ['"'], rest)
          | none => none
      | _ => none

/-- One attempt of the single-quoted-value rule
`"([^"]+)"\s*:\s*'([^']*)'` at the current position. -/
def rule3MatchAt (l : List Char) : Option (List Char × List Char) :=
  match l with
  | '"' :: r1 =>
      let key := r1.takeWhile (fun c => c ≠ '"')
      if key.isEmpty then none
      else
        match r1.dropWhile (fun c => c ≠ '"') with
        | '"' :: r2 =>
            match r2.dropWhile isJsWs with
            | ':' :: r3 =>
                match r3.dropWhile isJsWs with
                | '\'' :: r4 =>
                    let v := r4.takeWhile (fun c => c ≠ '\'')
                    match r4.dropWhile (fun c => c ≠ '\'') with
                    | '\'' :: r5 =>
                        some (('"' :: key) ++ ('"' :: ':' :: ' ' :: '"' :: v) ++ ['"'], r5)
                    | _ => none
                | _ => none
            | _ => none
        | _ => none
  | _ => none

/-- One attempt of the bareword-value rule
`("[\w\d_-]+")\s*:\s*([A-Za-z_]+)(?!["\w])` at the current position.  The
maximal letter run is followed by the negative lookahead; shrinking the run
cannot satisfy it, so the attempt fails outright when the next character is a
quote or a digit. -/
def rule4MatchAt (l : List Char) : Option (List Char × List Char) :=
  match matchQuotedKey l with
  | none => none
  | some (key, r1) =>
      match r1.dropWhile isJsWs with
      | ':' :: r2 =>
          let r3 := r2.dropWhile isJsWs
          let w := r3.takeWhile (fun c => c.isAlpha ∨ c = '_')
          if w.isEmpty then none
          else
            match r3.dropWhile (fun c => c.isAlpha ∨ c = '_') with
            | [] => some (key ++ (':' :: ' ' :: '"' :: w) ++ ['"'], [])
            | c :: rest =>
                if c = '"' ∨ c.isDigit then none
                else some (key ++ (':' :: ' ' :: '"' :: w) ++ ['"'], c :: rest)
      | _ => none

/-- Global regex replacement: leftmost attempts, resuming after each match. -/
def globalReplaceAux (step : List Char → Option (List Char × List Char)) :
    Nat → List Char → List Char
  | 0, l => l
  | _, [] => []
  | Nat.succ fuel, c :: rest =>
      match step (c :: rest) with
      | some (repl, after) => repl ++ globalReplaceAux step fuel after
      | none => c :: globalReplaceAux step fuel rest

def globalReplace (step : List Char → Option (List Char × List Char))
    (l : List Char) : List Char :=
  globalReplaceAux step l.length l

/-- The adjacent-quote-pair rule `(?:"')|(?:'")` replaced globally by `"`. -/
def collapseQuotePairs : List Char → List Char
  | '"' :: '\'' :: rest => '"' :: collapseQuotePairs rest
  | '\'' :: '"' :: rest => '"' :: collapseQuotePairs rest
  | c :: rest => c :: collapseQuotePairs rest
  | [] => []

/-- `normalizeJsonString` (README lines 588-610): the five repair passes in
source order. -/
def normalizeJsonString (s : String) : String :=
  let l1 := jsTrim (stripBeforeCloseBrace (stripAfterOpenBrace s.data))
  let l2 := globalReplace rule2MatchAt l1
  let l3 := globalReplace rule3MatchAt l2
  let l4 := globalReplace rule4MatchAt l3
  String.mk (collapseQuotePairs l4)

/-! ### `parseJSONObjectFromText` (README lines 364, 511-538) -/

/-- Content before the first occurrence of the closing fence `\n3backticks`. -/
def splitAtCloser : List Char → Option (List Char)
  | [] => none
  | l@(c :: r) =>
      if ['\n', '`', '`', '`'].isPrefixOf l then some []
      else
        match splitAtCloser r with
        | some content => some (c :: content)
        | none => none

/-- The capture of `jsonBlockPattern`, the regex
`3backticks json\n([\s\S]*?)\n3backticks` applied non-globally: the leftmost
opening fence that has a closing fence after it, with the lazy body running
to the first closer. -/
def extractJsonBlock : List Char → Option (List Char)
  | [] => none
  | l@(_ :: r) =>
      if ("```json\n".data).isPrefixOf l then
        match splitAtCloser (l.drop 8) with
        | some content => some content
        | none => extractJsonBlock r
      else extractJsonBlock r

/-- The `jsonData` computed by `parseJSONObjectFromText`: parse the fenced
block if present (trimmed, no repair pass), otherwise parse the repaired
trimmed text.  The `try`/`catch` around `JSON.parse` is the `none` case. -/
def parseJSONData (text : String) : Option JsonValue :=
  match extractJsonBlock text.data with
  | some inner => jsonParse (String.mk (jsTrim inner))
  | none => jsonParse (normalizeJsonString (String.mk (jsTrim text.data)))

/-- `parseJSONObjectFromText` (README lines 511-538): the final guard
`jsonData && typeof jsonData === "object" && !Array.isArray(jsonData)` keeps
only a non-null, non-array object; every other outcome is null. -/
def parseJSONObjectFromText (text : String) : Option JsonValue :=
  match parseJSONData text with
  | some (JsonValue.obj fields) => some (JsonValue.obj fields)
  | _ => none

/-! ### The response-freshness registry (bootstrap.ts lines 914, 927-936, 1076-1083, 1115-1119)

`latestResponseIds` is a `Map<agentId, Map<roomId, responseId>>`. -/

abbrev RoomResponses := List (String × String)

abbrev ResponseRegistry := List (String × RoomResponses)

/-- Registration at the start of `messageReceivedHandler` (lines 929-936):
ensure the agent map exists, then `agentResponses.set(roomId, responseId)` —
an unconditional overwrite. -/
def registerResponse (reg : ResponseRegistry) (agentId roomId responseId : String) :
    ResponseRegistry :=
  let agentResponses :=
    match mapGet reg agentId with
    | some m => m
    | none => []
  mapSet reg agentId (mapSet agentResponses roomId responseId)

/-- The id the registry currently tracks for an (agent, room) pair. -/
def trackedId (reg : ResponseRegistry) (agentId roomId : String) : Option String :=
  match mapGet reg agentId with
  | some m => mapGet m roomId
  | none => none

/-- The pre-delivery currency check (lines 1076-1078): the pass is current
exactly when `agentResponses.get(message.roomId)` equals its own response id
(the code discards on `currentResponseId !== responseId`). -/
def isCurrentCheck (reg : ResponseRegistry) (agentId roomId responseId : String) : Bool :=
  trackedId reg agentId roomId = some responseId

/-- Registrations performed by concurrently started handler passes for the
same agent, applied to the shared inner map in their start order. -/
def applyWrites (m : RoomResponses) (writes : List (String × String)) : RoomResponses :=
  writes.foldl (fun acc w => mapSet acc w.1 w.2) m

def getAgentRooms (reg : ResponseRegistry) (agentId : String) : RoomResponses :=
  match mapGet reg agentId with
  | some m => m
  | none => []

/-! ### The bounded structured-content retry loop (bootstrap.ts lines 1049-1074) -/

/-- Truthiness of the three required fields of the generated content:
`responseContent?.thought`, `responseContent?.plan`,
`responseContent?.actions`. -/
def hasRequiredFields (content : Option JsonValue) : Bool :=
  match content with
  | none => false
  | some v =>
      jsTruthyOpt (objGet v "thought") && jsTruthyOpt (objGet v "plan") &&
        jsTruthyOpt (objGet v "actions")

/-- The `while (retries < maxRetries && missing-fields)` loop: remaining
attempts count down from `maxRetries = 3`; `modelOut n` is the model text of
the n-th call.  Returns the number of model calls made and the final parsed
content. -/
def retryLoopAux (modelOut : Nat → String) :
    Nat → Nat → Option JsonValue → Nat × Option JsonValue
  | 0, calls, content => (calls, content)
  | Nat.succ fuel, calls, content =>
      if hasRequiredFields content then (calls, content)
      else retryLoopAux modelOut fuel (calls + 1)
        (parseJSONObjectFromText (modelOut calls))

def retryLoop (modelOut : Nat → String) : Nat × Option JsonValue :=
  retryLoopAux modelOut 3 0 none

/-! ### `messageReceivedHandler` (bootstrap.ts lines 922-1169, the newer variant)

The handler is embedded as a pure function from an environment — the inbound
message's fields, the oracle answers of the external collaborators
(participant state, model outputs), the interleaved registrations of racing
passes, and the wall-clock readings — to a trace of its effects.  The
surrounding 5-minute timeout race is real-time behaviour of the event loop
and is outside the model; the trace covers the processing path. -/

structure RunEvent where
  eventType : String
  status : String
  error : Option String
  duration : Option Nat
deriving DecidableEq

structure Env where
  agentId : String
  characterName : String
  msgEntityId : String
  msgRoomId : String
  msgId : String
  msgText : Option String
  participantUserState : Option String
  shouldRespondOutput : String
  responseOutput : Nat → String
  racingWrites : List (String × String)
  responseId : String
  startTime : Nat
  endTime : Nat

structure HandlerTrace where
  events : List RunEvent
  memoriesCreated : Nat
  embeddingsAdded : Nat
  processActionsCalls : Nat
  evaluateCalls : List Bool
  callbackCalls : Nat
  responseModelCalls : Nat
  registryAfter : ResponseRegistry
  thrown : Option String
deriving DecidableEq

/-- The error thrown at line 980 for a self-message. -/
def selfMessageError : String := "Message is from the agent itself"

/-- The TypeError raised at line 1032 when `parseJSONObjectFromText` returned
null and the handler reads `.providers` on it. -/
def nullProvidersTypeError : String :=
  "Cannot read properties of null (reading 'providers')"

def runStartedEvent : RunEvent :=
  { eventType := "RUN_STARTED", status := "started", error := none, duration := none }

/-- The `RUN_ENDED` payload: both the normal-completion emit (line 1140) and
the catch-block emit (line 1154) carry `status: "completed"`; the catch adds
the error message. -/
def runEndedEvent (env : Env) (err : Option String) : RunEvent :=
  { eventType := "RUN_ENDED", status := "completed", error := err,
    duration := some (env.endTime - env.startTime) }

/-- Does `message.content.text?.toLowerCase()` contain the lowercased
character name?  An absent text cannot mention it (optional chaining yields
`undefined`, so the negated guard holds). -/
def mentionsCharacter (env : Env) : Bool :=
  match env.msgText with
  | none => false
  | some t => hasInfix (toLowerList t.data) (toLowerList env.characterName.data)

/-- The muted-room guard (lines 991-999): muted and the text does not mention
the character name. -/
def mutedWithoutMention (env : Env) : Prop :=
  env.participantUserState = some "MUTED" ∧ mentionsCharacter env = false

instance (env : Env) : Decidable (mutedWithoutMention env) :=
  instDecidableAnd

/-- `action === "RESPOND"` on the decision object's `action` property. -/
def isRespondAction (v : Option JsonValue) : Bool :=
  match v with
  | some (JsonValue.str s) => s = "RESPOND"
  | _ => false

/-- The inner map the freshness check reads (line 1077): this pass's own
registration plus the racing passes' overwrites. -/
def agentRoomsAtCheck (env : Env) (reg : ResponseRegistry) : RoomResponses :=
  applyWrites
    (getAgentRooms (registerResponse reg env.agentId env.msgRoomId env.responseId)
      env.agentId)
    env.racingWrites

/-- The registry cleanup of a delivered pass (lines 1115-1119):
`agentResponses.delete(roomId)`, dropping the agent entry when empty. -/
def cleanupRegistry (env : Env) (reg1 : ResponseRegistry) (rooms : RoomResponses) :
    ResponseRegistry :=
  let inner := mapDelete rooms env.msgRoomId
  if inner.length = 0 then mapDelete reg1 env.agentId
  else mapSet reg1 env.agentId inner

/-- The registry as left behind by a pass that did not reach the delivered
cleanup: its own registration plus the racing overwrites. -/
def registryNoCleanup (env : Env) (reg : ResponseRegistry) : ResponseRegistry :=
  mapSet (registerResponse reg env.agentId env.msgRoomId env.responseId)
    env.agentId (agentRoomsAtCheck env reg)

/-- One memory record is persisted at line 1101 for the generated plan when
the content is non-null. -/
def planMemories (content : Option JsonValue) : Nat :=
  match content with
  | some _ => 1
  | none => 0

def messageReceivedHandler (env : Env) (reg : ResponseRegistry) : HandlerTrace :=
  if env.msgEntityId = env.agentId then
    { events := [runStartedEvent, runEndedEvent env (some selfMessageError)],
      memoriesCreated := 0, embeddingsAdded := 0, processActionsCalls := 0,
      evaluateCalls := [], callbackCalls := 0, responseModelCalls := 0,
      registryAfter := registerResponse reg env.agentId env.msgRoomId env.responseId,
      thrown := some selfMessageError }
  else if mutedWithoutMention env then
    { events := [runStartedEvent],
      memoriesCreated := 1, embeddingsAdded := 1, processActionsCalls := 0,
      evaluateCalls := [], callbackCalls := 0, responseModelCalls := 0,
      registryAfter := registryNoCleanup env reg, thrown := none }
  else
    match parseJSONObjectFromText env.shouldRespondOutput with
    | none =>
        { events := [runStartedEvent, runEndedEvent env (some nullProvidersTypeError)],
          memoriesCreated := 1, embeddingsAdded := 1, processActionsCalls := 0,
          evaluateCalls := [], callbackCalls := 0, responseModelCalls := 0,
          registryAfter := registryNoCleanup env reg,
          thrown := some nullProvidersTypeError }
    | some respObj =>
        if jsTruthyOpt (objGet respObj "action") &&
            isRespondAction (objGet respObj "action") then
          if mapGet (agentRoomsAtCheck env reg) env.msgRoomId = some env.responseId then
            { events := [runStartedEvent, runEndedEvent env none],
              memoriesCreated := 1 + planMemories (retryLoop env.responseOutput).2,
              embeddingsAdded := 1,
              processActionsCalls := 1, evaluateCalls := [true], callbackCalls := 0,
              responseModelCalls := (retryLoop env.responseOutput).1,
              registryAfter := cleanupRegistry env
                (registerResponse reg env.agentId env.msgRoomId env.responseId)
                (agentRoomsAtCheck env reg),
              thrown := none }
          else
            { events := [runStartedEvent],
              memoriesCreated := 1, embeddingsAdded := 1, processActionsCalls := 0,
              evaluateCalls := [], callbackCalls := 0,
              responseModelCalls := (retryLoop env.responseOutput).1,
              registryAfter := registryNoCleanup env reg, thrown := none }
        else
          { events := [runStartedEvent, runEndedEvent env none],
            memoriesCreated := 1, embeddingsAdded := 1, processActionsCalls := 0,
            evaluateCalls := [false], callbackCalls := 0, responseModelCalls := 0,
            registryAfter := registryNoCleanup env reg, thrown := none }

/-! ## Supporting lemmas -/

theorem trackedId_registerResponse (reg : ResponseRegistry) (a r i : String) :
    trackedId (registerResponse reg a r i) a r = some i := by
  simp [trackedId, registerResponse, mapGet_mapSet_self]

/-! ## Claims -/

/-- Claim C1: the response-freshness registry holds at most one response id
per (agent, room) pair — `trackedId` yields an `Option String` — and the
registration performed at the start of `messageReceivedHandler`
unconditionally overwrites the previously recorded id (last-writer-wins):
when two passes register for the same pair before either delivers, the
pre-delivery currency check rejects the earlier id and accepts the later
one. -/
theorem freshnessLastWriterWins (reg : ResponseRegistry) (a r id1 id2 : String)
    (h : id1 ≠ id2) :
    trackedId (registerResponse reg a r id1) a r = some id1 ∧
    trackedId (registerResponse (registerResponse reg a r id1) a r id2) a r = some id2 ∧
    isCurrentCheck (registerResponse (registerResponse reg a r id1) a r id2) a r id1
      = false ∧
    isCurrentCheck (registerResponse (registerResponse reg a r id1) a r id2) a r id2
      = true := by
  refine ⟨trackedId_registerResponse _ _ _ _, trackedId_registerResponse _ _ _ _, ?_, ?_⟩
  · simp [isCurrentCheck, trackedId_registerResponse]
    exact fun hx => h hx.symm
  · simp [isCurrentCheck, trackedId_registerResponse]

/-- Witness for C1 at a concrete registry and ids. -/
theorem freshnessLastWriterWinsWitness :
    trackedId (registerResponse [] "agent-a" "room-r" "id-1") "agent-a" "room-r"
      = some "id-1" ∧
    trackedId (registerResponse (registerResponse [] "agent-a" "room-r" "id-1")
      "agent-a" "room-r" "id-2") "agent-a" "room-r" = some "id-2" ∧
    isCurrentCheck (registerResponse (registerResponse [] "agent-a" "room-r" "id-1")
      "agent-a" "room-r" "id-2") "agent-a" "room-r" "id-1" = false ∧
    isCurrentCheck (registerResponse (registerResponse [] "agent-a" "room-r" "id-1")
      "agent-a" "room-r" "id-2") "agent-a" "room-r" "id-2" = true :=
  freshnessLastWriterWins [] "agent-a" "room-r" "id-1" "id-2" (by decide)

/-- A string with two fenced blocks; the parser takes the first. -/
def twoFenceInput : String :=
  "```json\n\x7b\"a\": 1\x7d\n``` and ```json\n[2]\n```"

/-- Claim C3: `parseJSONObjectFromText` is total over strings and returns
either a non-null, non-array object or null — exercised on the empty string,
plain prose without braces, and text with two fenced blocks (first wins). -/
theorem parseJsonObjectTotalAndObjectOnly :
    (∀ s : String, parseJSONObjectFromText s = none ∨
      ∃ fields, parseJSONObjectFromText s = some (JsonValue.obj fields)) ∧
    parseJSONObjectFromText "" = none ∧
    parseJSONObjectFromText "no data here" = none ∧
    parseJSONObjectFromText twoFenceInput = some (JsonValue.obj [("a", JsonValue.num "1")]) := by
  refine ⟨fun s => ?_, rfl, rfl, rfl⟩
  unfold parseJSONObjectFromText
  cases h : parseJSONData s with
  | none => exact Or.inl rfl
  | some v =>
      cases v with
      | obj fields => exact Or.inr ⟨fields, rfl⟩
      | null => exact Or.inl rfl
      | bool b => exact Or.inl rfl
      | num n => exact Or.inl rfl
      | str s2 => exact Or.inl rfl
      | arr xs => exact Or.inl rfl

/-- The input of claim C4: bareword keys, a single-quoted value, no fences. -/
def bareKeyInput : String :=
  String.mk ['\x7b', 'a', ':', ' ', '1', ',', ' ', 'b', ':', ' ', '\'', 'x', '\'', '\x7d']

/-- Counterexample to claim C4: on the bareword-key input the parser returns
null, not the claimed object — every repair rule of `normalizeJsonString`
requires a double-quoted key, so nothing fires and `JSON.parse` rejects the
text. -/
theorem bareKeyNotRepairedCounterexample :
    parseJSONObjectFromText bareKeyInput = none := rfl

/-- Claim C4 as amended: the normalization pass leaves the bareword-key input
unchanged (its repair rules only fire on double-quoted keys), and
`parseJSONObjectFromText` returns null on it rather than an object. -/
theorem bareKeyInputReturnsNull :
    normalizeJsonString bareKeyInput = bareKeyInput ∧
    parseJSONObjectFromText bareKeyInput = none := ⟨rfl, rfl⟩

/-- An input on which normalization is not idempotent. -/
def doubleOpenBraceInput : String := String.mk ['\x7b', ' ', '\x7b', ' ', 'x']

/-- Counterexample to claim C7: `normalizeJsonString` applied twice differs
from applying it once on this input. -/
theorem normalizeNotIdempotentCounterexample :
    normalizeJsonString (normalizeJsonString doubleOpenBraceInput) ≠
      normalizeJsonString doubleOpenBraceInput := by decide

/-- Claim C7 as amended: `normalizeJsonString` is not idempotent on all
strings — each application rewrites only the first open-brace-whitespace
occurrence (`.replace` without the global flag), so a second application can
rewrite a later occurrence and change the string again. -/
theorem normalizeSecondPassDiffers :
    normalizeJsonString doubleOpenBraceInput = String.mk ['\x7b', '\x7b', ' ', 'x'] ∧
    normalizeJsonString (String.mk ['\x7b', '\x7b', ' ', 'x'])
      = String.mk ['\x7b', '\x7b', 'x'] := ⟨rfl, rfl⟩

theorem retryLoopAux_le (f : Nat → String) (fuel : Nat) :
    ∀ (calls : Nat) (c : Option JsonValue),
      (retryLoopAux f fuel calls c).1 ≤ calls + fuel := by
  induction fuel with
  | zero => intro calls c; simp [retryLoopAux]
  | succ n ih =>
      intro calls c
      unfold retryLoopAux
      by_cases h : hasRequiredFields c = true
      · simp [h]
      · simp [h]
        have := ih (calls + 1) (parseJSONObjectFromText (f calls))
        omega

/-- Claim C8: the structured-content generation loop makes at most
`maxRetries = 3` model calls, terminates (it is a total function), exits as
soon as the parsed content has all required fields, and makes exactly one
call when the first output already parses with all required fields; the
handler's responding phase therefore makes at most 3 content-model calls. -/
theorem retryLoopBoundedAndEager :
    (∀ f : Nat → String, (retryLoop f).1 ≤ 3 ∧
      (hasRequiredFields (parseJSONObjectFromText (f 0)) = true →
        retryLoop f = (1, parseJSONObjectFromText (f 0)))) ∧
    (∀ (env : Env) (reg : ResponseRegistry),
      (messageReceivedHandler env reg).responseModelCalls ≤ 3) := by
  constructor
  · intro f
    constructor
    · have := retryLoopAux_le f 3 0 none
      simpa [retryLoop] using this
    · intro h
      have e1 : retryLoop f =
          if hasRequiredFields (parseJSONObjectFromText (f 0)) = true
          then (1, parseJSONObjectFromText (f 0))
          else retryLoopAux f 1 2 (parseJSONObjectFromText (f 1)) := rfl
      rw [e1, if_pos h]
  · intro env reg
    have hb : (retryLoop env.responseOutput).1 ≤ 3 := by
      have := retryLoopAux_le env.responseOutput 3 0 none
      simpa [retryLoop] using this
    unfold messageReceivedHandler
    repeat' split
    all_goals simp_all

/-- Witness for C8: a first model output carrying thought, plan and actions
leads to exactly one call. -/
def goodModelOut : Nat → String := fun _ =>
  "\x7b\"thought\": \"t\", \"plan\": \"p\", \"actions\": [\"REPLY\"]\x7d"

theorem retryLoopBoundedAndEagerWitness :
    hasRequiredFields (parseJSONObjectFromText (goodModelOut 0)) = true ∧
    retryLoop goodModelOut = (1, parseJSONObjectFromText (goodModelOut 0)) :=
  ⟨rfl, (retryLoopBoundedAndEager.1 goodModelOut).2 rfl⟩

/-- A pass whose decision is RESPOND but whose id was overwritten by a racing
pass before the freshness check. -/
def staleEnv : Env :=
  { agentId := "agent-1", characterName := "Eliza",
    msgEntityId := "user-1", msgRoomId := "room-1", msgId := "msg-1",
    msgText := some "hello there", participantUserState := none,
    shouldRespondOutput := "\x7b\"action\": \"RESPOND\"\x7d",
    responseOutput := fun _ =>
      "\x7b\"thought\": \"t\", \"plan\": \"p\", \"actions\": [\"REPLY\"]\x7d",
    racingWrites := [("room-1", "id-2")],
    responseId := "id-1", startTime := 100, endTime := 350 }

/-- Counterexample to claim C2: on a stale RESPOND pass the generated content
is indeed discarded without `processActions` or the callback, but
`runtime.evaluate` is NOT invoked — the `return` at line 1082 exits the
processing function before the `runtime.evaluate` call at line 1124, so no
evaluator bookkeeping happens for the pass. -/
theorem staleSkipsEvaluateCounterexample :
    (messageReceivedHandler staleEnv []).processActionsCalls = 0 ∧
    (messageReceivedHandler staleEnv []).callbackCalls = 0 ∧
    (messageReceivedHandler staleEnv []).evaluateCalls = [] := ⟨rfl, rfl, rfl⟩

/-- Claim C2 as amended: on a RESPOND pass whose freshness check fails, the
generated content is discarded without invoking `processActions` or the
delivery callback, and — contrary to the claim — the evaluator runner is not
invoked either: the pass returns immediately (no throw, only the incoming
message persisted). -/
theorem staleDiscardsWithoutEvaluate (env : Env) (reg : ResponseRegistry) (o : JsonValue)
    (h1 : env.msgEntityId ≠ env.agentId)
    (h2 : env.participantUserState ≠ some "MUTED")
    (h3 : parseJSONObjectFromText env.shouldRespondOutput = some o)
    (h4 : objGet o "action" = some (JsonValue.str "RESPOND"))
    (h5 : mapGet (agentRoomsAtCheck env reg) env.msgRoomId ≠ some env.responseId) :
    (messageReceivedHandler env reg).processActionsCalls = 0 ∧
    (messageReceivedHandler env reg).callbackCalls = 0 ∧
    (messageReceivedHandler env reg).evaluateCalls = [] ∧
    (messageReceivedHandler env reg).memoriesCreated = 1 ∧
    (messageReceivedHandler env reg).thrown = none := by
  have hm : ¬ mutedWithoutMention env := fun hc => h2 hc.1
  have hre : ("RESPOND" : String).isEmpty = false := rfl
  unfold messageReceivedHandler
  rw [if_neg h1, if_neg hm]
  simp [h3, h4, h5, jsTruthyOpt, jsTruthy, isRespondAction, hre]

/-- Witness for the amended C2 at the concrete stale environment. -/
theorem staleDiscardsWithoutEvaluateWitness :
    (messageReceivedHandler staleEnv []).processActionsCalls = 0 ∧
    (messageReceivedHandler staleEnv []).callbackCalls = 0 ∧
    (messageReceivedHandler staleEnv []).evaluateCalls = [] ∧
    (messageReceivedHandler staleEnv []).memoriesCreated = 1 ∧
    (messageReceivedHandler staleEnv []).thrown = none :=
  staleDiscardsWithoutEvaluate staleEnv [] (JsonValue.obj [("action", JsonValue.str "RESPOND")])
    (by decide) (by decide) rfl rfl (by decide)

/-- A message sent by the agent itself. -/
def selfEnv : Env :=
  { agentId := "agent-1", characterName := "Eliza",
    msgEntityId := "agent-1", msgRoomId := "room-1", msgId := "msg-1",
    msgText := some "self talk", participantUserState := none,
    shouldRespondOutput := "\x7b\"action\": \"IGNORE\"\x7d",
    responseOutput := fun _ => "",
    racingWrites := [], responseId := "id-1", startTime := 0, endTime := 10 }

/-- Counterexample to claim C5: for a message whose sender is the agent
itself the persist step IS skipped — the newer handler throws at line 980
before the `createMemory`/`addEmbeddingToMemory` at lines 984-987. -/
theorem selfMessageSkipsPersistCounterexample :
    (messageReceivedHandler selfEnv []).memoriesCreated = 0 ∧
    (messageReceivedHandler selfEnv []).embeddingsAdded = 0 ∧
    (messageReceivedHandler selfEnv []).thrown = some selfMessageError := ⟨rfl, rfl, rfl⟩

/-- Claim C5 as amended: for every non-self message the handler embeds and
persists the message before any respond decision — one embedding and at
least one memory record on every path, including the paths that ignore the
message or throw during the decision; for a self-message the handler throws
before persisting, so that persist is skipped. -/
theorem persistExceptSelfMessages (env : Env) (reg : ResponseRegistry) :
    (env.msgEntityId ≠ env.agentId →
      1 ≤ (messageReceivedHandler env reg).memoriesCreated ∧
      (messageReceivedHandler env reg).embeddingsAdded = 1) ∧
    (env.msgEntityId = env.agentId →
      (messageReceivedHandler env reg).memoriesCreated = 0 ∧
      (messageReceivedHandler env reg).embeddingsAdded = 0 ∧
      (messageReceivedHandler env reg).thrown = some selfMessageError) := by
  constructor
  · intro h
    unfold messageReceivedHandler
    rw [if_neg h]
    repeat' split
    all_goals simp
  · intro h
    unfold messageReceivedHandler
    rw [if_pos h]
    exact ⟨rfl, rfl, rfl⟩

/-- Witness for the amended C5 at the concrete environments. -/
theorem persistExceptSelfMessagesWitness :
    (1 ≤ (messageReceivedHandler staleEnv []).memoriesCreated ∧
      (messageReceivedHandler staleEnv []).embeddingsAdded = 1) ∧
    ((messageReceivedHandler selfEnv []).memoriesCreated = 0 ∧
      (messageReceivedHandler selfEnv []).embeddingsAdded = 0 ∧
      (messageReceivedHandler selfEnv []).thrown = some selfMessageError) :=
  ⟨(persistExceptSelfMessages staleEnv []).1 (by decide),
   (persistExceptSelfMessages selfEnv []).2 rfl⟩

/-- Claim C6: when the should-respond output parses to an IGNORE decision,
the dispatcher is never invoked and the handler delivers nothing through the
callback, yet the evaluator runner is invoked exactly once with the false
respond decision as its `didRespond` argument, and the pass completes
normally. -/
theorem ignoreDecisionRunsOnlyEvaluator (env : Env) (reg : ResponseRegistry) (o : JsonValue)
    (h1 : env.msgEntityId ≠ env.agentId)
    (h2 : env.participantUserState ≠ some "MUTED")
    (h3 : parseJSONObjectFromText env.shouldRespondOutput = some o)
    (h4 : objGet o "action" = some (JsonValue.str "IGNORE")) :
    (messageReceivedHandler env reg).processActionsCalls = 0 ∧
    (messageReceivedHandler env reg).callbackCalls = 0 ∧
    (messageReceivedHandler env reg).evaluateCalls = [false] ∧
    (messageReceivedHandler env reg).thrown = none := by
  have hm : ¬ mutedWithoutMention env := fun hc => h2 hc.1
  have hig : ("IGNORE" : String).isEmpty = false := rfl
  unfold messageReceivedHandler
  rw [if_neg h1, if_neg hm]
  simp [h3, h4, jsTruthyOpt, jsTruthy, isRespondAction, hig]

/-- A message the agent will ignore: the decision model answers IGNORE. -/
def ignoreEnv : Env :=
  { agentId := "agent-1", characterName := "Eliza",
    msgEntityId := "user-1", msgRoomId := "room-1", msgId := "msg-1",
    msgText := some "talking to someone else", participantUserState := none,
    shouldRespondOutput := "\x7b\"action\": \"IGNORE\"\x7d",
    responseOutput := fun _ => "",
    racingWrites := [], responseId := "id-1", startTime := 0, endTime := 10 }

/-- Witness for C6 at the concrete IGNORE environment. -/
theorem ignoreDecisionRunsOnlyEvaluatorWitness :
    (messageReceivedHandler ignoreEnv []).processActionsCalls = 0 ∧
    (messageReceivedHandler ignoreEnv []).callbackCalls = 0 ∧
    (messageReceivedHandler ignoreEnv []).evaluateCalls = [false] ∧
    (messageReceivedHandler ignoreEnv []).thrown = none :=
  ignoreDecisionRunsOnlyEvaluator ignoreEnv []
    (JsonValue.obj [("action", JsonValue.str "IGNORE")]) (by decide) (by decide) rfl rfl

/-- Counterexample to claim C9: the run-ended event of the error path does
not carry a status distinct from normal completion — both the error path and
the normal path emit `RUN_ENDED` with status `"completed"` (the catch block
at lines 1147-1159 reuses the literal); only the `error` field
distinguishes them. -/
theorem errorStatusNotDistinctCounterexample :
    (messageReceivedHandler selfEnv []).thrown = some selfMessageError ∧
    (messageReceivedHandler selfEnv []).events.map RunEvent.status
      = ["started", "completed"] ∧
    (messageReceivedHandler ignoreEnv []).thrown = none ∧
    (messageReceivedHandler ignoreEnv []).events.map RunEvent.status
      = ["started", "completed"] := ⟨rfl, rfl, rfl, rfl⟩

/-- Claim C9 as amended: when the processing path throws, the handler emits
exactly one run-ended lifecycle event carrying the error message and the
elapsed duration and re-throws the exception to the caller — but the event's
status is `"completed"`, the same literal as normal completion, not a
distinct error status. -/
theorem errorPathSingleRunEndedCompleted (env : Env) (reg : ResponseRegistry) (e : String)
    (h : (messageReceivedHandler env reg).thrown = some e) :
    (messageReceivedHandler env reg).events
      = [runStartedEvent, runEndedEvent env (some e)] ∧
    (runEndedEvent env (some e)).status = "completed" ∧
    (runEndedEvent env (some e)).error = some e ∧
    (runEndedEvent env (some e)).duration = some (env.endTime - env.startTime) := by
  refine ⟨?_, rfl, rfl, rfl⟩
  unfold messageReceivedHandler at h ⊢
  by_cases h1 : env.msgEntityId = env.agentId
  · rw [if_pos h1] at h ⊢
    simp only [Option.some.injEq] at h
    rw [← h]
  · rw [if_neg h1] at h ⊢
    by_cases h2 : mutedWithoutMention env
    · rw [if_pos h2] at h
      exact absurd h (by simp)
    · rw [if_neg h2] at h ⊢
      cases hp : parseJSONObjectFromText env.shouldRespondOutput with
      | none =>
          simp only [hp, Option.some.injEq] at h
          simp only [hp]
          rw [← h]
      | some o =>
          simp only [hp] at h
          by_cases h3 : (jsTruthyOpt (objGet o "action") &&
              isRespondAction (objGet o "action")) = true
          · rw [if_pos h3] at h
            by_cases h4 : mapGet (agentRoomsAtCheck env reg) env.msgRoomId
                = some env.responseId
            · rw [if_pos h4] at h
              exact absurd h (by simp)
            · rw [if_neg h4] at h
              exact absurd h (by simp)
          · rw [if_neg h3] at h
            exact absurd h (by simp)

/-- Witness for the amended C9 at the self-message environment. -/
theorem errorPathSingleRunEndedCompletedWitness :
    (messageReceivedHandler selfEnv []).events
      = [runStartedEvent, runEndedEvent selfEnv (some selfMessageError)] ∧
    (runEndedEvent selfEnv (some selfMessageError)).status = "completed" ∧
    (runEndedEvent selfEnv (some selfMessageError)).error = some selfMessageError ∧
    (runEndedEvent selfEnv (some selfMessageError)).duration
      = some (selfEnv.endTime - selfEnv.startTime) :=
  errorPathSingleRunEndedCompleted selfEnv [] selfMessageError rfl

/-- Claim C10: when the should-respond model output parses to null, the
handler dereferences the null result reading `.providers` and throws a
TypeError — the pass neither dispatches nor evaluates, and the exception
propagates to the caller after the catch block's run-ended event. -/
theorem nullDecisionParseThrowsTypeError (env : Env) (reg : ResponseRegistry)
    (h1 : env.msgEntityId ≠ env.agentId)
    (h2 : env.participantUserState ≠ some "MUTED")
    (h3 : parseJSONObjectFromText env.shouldRespondOutput = none) :
    (messageReceivedHandler env reg).thrown = some nullProvidersTypeError ∧
    (messageReceivedHandler env reg).events
      = [runStartedEvent, runEndedEvent env (some nullProvidersTypeError)] ∧
    (messageReceivedHandler env reg).processActionsCalls = 0 ∧
    (messageReceivedHandler env reg).evaluateCalls = [] := by
  have hm : ¬ mutedWithoutMention env := fun hc => h2 hc.1
  unfold messageReceivedHandler
  rw [if_neg h1, if_neg hm]
  simp [h3]

/-- A should-respond model output with no JSON at all. -/
def proseEnv : Env :=
  { agentId := "agent-1", characterName := "Eliza",
    msgEntityId := "user-1", msgRoomId := "room-1", msgId := "msg-1",
    msgText := some "hi", participantUserState := none,
    shouldRespondOutput := "no data here",
    responseOutput := fun _ => "",
    racingWrites := [], responseId := "id-1", startTime := 0, endTime := 10 }

/-- Witness for C10: plain prose parses to null and the pass throws. -/
theorem nullDecisionParseThrowsTypeErrorWitness :
    (messageReceivedHandler proseEnv []).thrown = some nullProvidersTypeError ∧
    (messageReceivedHandler proseEnv []).events
      = [runStartedEvent, runEndedEvent proseEnv (some nullProvidersTypeError)] ∧
    (messageReceivedHandler proseEnv []).processActionsCalls = 0 ∧
    (messageReceivedHandler proseEnv []).evaluateCalls = [] :=
  nullDecisionParseThrowsTypeError proseEnv [] (by decide) (by decide) rfl

end Eliza
